import Mathlib

/-!
Shallow embedding of the e-commerce backend in `src/main.py`:
product catalog, user directory (register/login), per-user cart store
(add/merge, read-with-enrichment) and checkout (totals + cart clear).

Python floats are modelled by the type `F64` of dyadic rationals
`m * 2 ^ e` in canonical form (odd mantissa, or the zero `⟨0, 0⟩`), with
every arithmetic operation followed by correct round-to-nearest (ties to
even) at 53 significand bits: this is the exact observable behaviour of
Python (IEEE-754 binary64) float arithmetic throughout the normal range,
which every value in this program stays in (catalog prices and the
integer quantities involved never overflow or underflow).  Two Python
floats are `==` exactly when their `F64` canonical forms are equal.
Python dicts are modelled as insertion-ordered association lists with
unique keys; Python ints as `Int` / `Nat`.  Each mutating handler
returns its result together with the post-state; an HTTPException raised
before any mutation is modelled as an error result paired with the
unchanged state, exactly mirroring the control flow of the source.
-/

namespace ECommerce

/-! ### IEEE-754 binary64 arithmetic as canonical dyadic rationals -/

/-- Fuel-driven floor of log₂ on naturals; structural recursion on the
fuel so that the kernel can evaluate it. -/
def natLog2F : Nat → Nat → Nat
  | 0, _ => 0
  | fuel + 1, n => if n ≤ 1 then 0 else natLog2F fuel (n / 2) + 1

/-- `⌊log₂ n⌋` for `n ≥ 1` (junk value `0` at `0`). -/
def natLog2 (n : Nat) : Nat := natLog2F n n

/-- Round `p / q` (with `q > 0`) to the nearest natural, ties to even. -/
def roundDivHalfEven (p q : Nat) : Nat :=
  let n := p / q
  let r := p % q
  if 2 * r < q then n
  else if q < 2 * r then n + 1
  else if n % 2 = 0 then n else n + 1

/-- `⌊log₂ (a / q)⌋` for naturals `a, q ≥ 1`. -/
def ratFloorLog2 (a q : Nat) : Int :=
  let d : Int := (natLog2 a : Int) - (natLog2 q : Int)
  if q * 2 ^ d.toNat ≤ a * 2 ^ (-d).toNat then d else d - 1

/-- A binary64 value, as the exact dyadic rational `m * 2 ^ e` it
denotes.  All constructors below return the canonical form (odd `m`, or
`⟨0, 0⟩`), so structural equality coincides with value equality, exactly
as `==` on Python floats does. -/
structure F64 where
  m : Int
  e : Int
deriving DecidableEq

/-- The float `0.0`. -/
def F64.zero : F64 := ⟨0, 0⟩

/-- Strip trailing zero bits of the mantissa (fuel-driven). -/
def canonM : Nat → Int → Int → F64
  | 0, m, e => ⟨m, e⟩
  | fuel + 1, m, e =>
    if m = 0 then ⟨0, 0⟩
    else if m % 2 = 0 then canonM fuel (m / 2) (e + 1)
    else ⟨m, e⟩

/-- Round the exact dyadic `m * 2 ^ e` to the nearest binary64 value
(ties to even); exact when the mantissa already fits in 53 bits. -/
def roundM (m e : Int) : F64 :=
  if m = 0 then ⟨0, 0⟩
  else
    let a := m.natAbs
    let L := natLog2 a + 1
    if L ≤ 53 then canonM 64 m e
    else
      let sh := L - 53
      let a2 := roundDivHalfEven a (2 ^ sh)
      canonM 64 (if m < 0 then -(a2 : Int) else (a2 : Int)) (e + sh)

/-- Round the exact rational `p / q` (with `q > 0`) to the nearest
binary64 value — what parsing a Python decimal literal does. -/
def ratToF64 (p : Int) (q : Nat) : F64 :=
  if p = 0 then ⟨0, 0⟩
  else
    let a := p.natAbs
    let d : Int := ratFloorLog2 a q - 52
    let pn := a * 2 ^ (-d).toNat
    let qn := q * 2 ^ d.toNat
    let m := roundDivHalfEven pn qn
    canonM 64 (if p < 0 then -(m : Int) else (m : Int)) d

/-- Float multiplication: correctly rounded exact product. -/
def F64.mul (x y : F64) : F64 := roundM (x.m * y.m) (x.e + y.e)

/-- Float addition: correctly rounded exact sum. -/
def F64.add (x y : F64) : F64 :=
  let e := min x.e y.e
  roundM (x.m * 2 ^ (x.e - e).toNat + y.m * 2 ^ (y.e - e).toNat) e

/-- Conversion of a Python int to float (rounds beyond 2^53). -/
def intToF64 (n : Int) : F64 := roundM n 0

/-- The exact rational value a binary64 value denotes (for spec-level
statements only; the program itself computes in `F64`). -/
def F64.val (x : F64) : ℚ := (x.m : ℚ) * (2 : ℚ) ^ x.e

/-- Left-to-right float accumulation `subtotal += item_total` starting
from `0.0`, as the loop in `checkout` performs it. -/
def floatSum (l : List F64) : F64 := l.foldl F64.add F64.zero

/-! ### Data model (src/main.py, sections 1–2) -/

/-- A catalog product (`Product` model / `sample_products` entries). -/
structure Product where
  id : Nat
  name : String
  description : Option String
  price : F64
  image : Option String
deriving DecidableEq

/-- A stored user record (`users_db` entries). -/
structure User where
  id : Nat
  username : String
  email : String
  hashed_password : String
deriving DecidableEq

/-- A cart line item (`carts_db` list entries: product_id, quantity). -/
structure LineItem where
  product_id : Nat
  quantity : Int
deriving DecidableEq

/-- Public user view (`UserResponse`): id, username, email — and no
password hash field at all. -/
structure UserResponse where
  id : Nat
  username : String
  email : String
deriving DecidableEq

/-- An enriched cart item as built in `get_cart` (with image). -/
structure EnrichedCartItem where
  product_id : Nat
  name : String
  price : F64
  quantity : Int
  item_total : F64
  image : Option String
deriving DecidableEq

/-- `CartResponse`: user id, enriched items, total quantity count. -/
structure CartResponse where
  user_id : Nat
  items : List EnrichedCartItem
  total_items : Int
deriving DecidableEq

/-- An enriched item as built in `checkout` (no image field). -/
structure CheckoutItem where
  product_id : Nat
  name : String
  price : F64
  quantity : Int
  item_total : F64
deriving DecidableEq

/-- `CheckoutResponse`: items, subtotal, total, message. -/
structure CheckoutResponse where
  user_id : Nat
  items : List CheckoutItem
  subtotal : F64
  total : F64
  message : String
deriving DecidableEq

/-- A raised `HTTPException`: status code and detail string. -/
structure HTTPError where
  status_code : Nat
  detail : String
deriving DecidableEq

/-- Decidable equality of handler outcomes. -/
instance exceptDecEq {ε α : Type} [DecidableEq ε] [DecidableEq α] :
    DecidableEq (Except ε α)
  | Except.error a, Except.error b =>
    if h : a = b then isTrue (by rw [h])
    else isFalse fun hh => h (by injection hh)
  | Except.error _, Except.ok _ => isFalse fun hh => Except.noConfusion hh
  | Except.ok _, Except.error _ => isFalse fun hh => Except.noConfusion hh
  | Except.ok a, Except.ok b =>
    if h : a = b then isTrue (by rw [h])
    else isFalse fun hh => h (by injection hh)

def usernameTakenError : HTTPError := ⟨400, "Username already taken"⟩
def emailRegisteredError : HTTPError := ⟨400, "Email already registered"⟩
def invalidCredentialsError : HTTPError := ⟨401, "Invalid credentials"⟩
def userNotFoundError : HTTPError := ⟨404, "User not found"⟩
def productNotFoundError : HTTPError := ⟨404, "Product not found"⟩
def cartNotFoundError : HTTPError := ⟨404, "Cart not found for this user"⟩
def cartEmptyError : HTTPError := ⟨400, "Cart is empty"⟩

/-- The static catalog `sample_products`; each decimal price literal is
parsed to its binary64 value (`999.99 = 99999/100`, and so on). -/
def sample_products : List Product :=
  [⟨1, "iPhone 15 Pro", some "Latest iPhone with advanced camera",
     ratToF64 99999 100, some "https://example.com/iphone15.jpg"⟩,
   ⟨2, "Samsung Galaxy S23", some "Powerful Android smartphone",
     ratToF64 89999 100, some "https://example.com/galaxy_s23.jpg"⟩,
   ⟨3, "MacBook Air M2", some "Ultra-thin laptop with M2 chip",
     ratToF64 129999 100, some "https://example.com/macbook_air.jpg"⟩,
   ⟨4, "Sony Headphones", some "Wireless noise-canceling headphones",
     ratToF64 34999 100, some "https://example.com/sony_headphones.jpg"⟩,
   ⟨5, "Nike Shoes", some "Classic basketball shoes",
     ratToF64 17599 100, some "https://example.com/nike_shoes.jpg"⟩]

/-- The whole mutable module state: `users_db`, `next_user_id`,
`carts_db` (an insertion-ordered dict keyed by user id). -/
structure AppState where
  users_db : List User
  next_user_id : Nat
  carts_db : List (Nat × List LineItem)
deriving DecidableEq

/-- State at process start: no users, `next_user_id = 1`, no carts. -/
def initialState : AppState := ⟨[], 1, []⟩

/-! ### Dict operations on `carts_db` -/

/-- `carts_db[k]` / `k in carts_db`: lookup in the association list. -/
def dictLookup (d : List (Nat × List LineItem)) (k : Nat) :
    Option (List LineItem) :=
  (d.find? (fun kv => kv.1 == k)).map Prod.snd

/-- `carts_db[k] = v`: replace the value at an existing key in place,
otherwise append the new key at the end (Python dict semantics). -/
def dictSet (d : List (Nat × List LineItem)) (k : Nat) (v : List LineItem) :
    List (Nat × List LineItem) :=
  match d with
  | [] => [(k, v)]
  | kv :: rest => if kv.1 = k then (k, v) :: rest else kv :: dictSet rest k v

/-! ### Helper functions (src/main.py, section 3) -/

def find_user_by_username (s : AppState) (username : String) : Option User :=
  s.users_db.find? (fun u => u.username == username)

def find_user_by_email (s : AppState) (email : String) : Option User :=
  s.users_db.find? (fun u => u.email == email)

/-- Python's `"@" in identifier`: the identifier contains the character
"@" (as char membership in the string's characters). -/
def hasAtSign (identifier : String) : Bool := identifier.data.contains '@'

def find_user_by_username_or_email (s : AppState) (identifier : String) :
    Option User :=
  if hasAtSign identifier then find_user_by_email s identifier
  else find_user_by_username s identifier

def find_product_by_id (product_id : Nat) : Option Product :=
  sample_products.find? (fun p => p.id == product_id)

/-! ### Handlers (src/main.py, section 4)

`hashPw` and `verifyPw` stand for the opaque bcrypt `hash_password` /
`verify_password` primitives; the handlers are parameterised by them. -/

/-- `register_user`: duplicate-username check, duplicate-email check,
then append user, advance `next_user_id`, create empty cart, return the
public view. -/
def register_user (hashPw : String → String) (s : AppState)
    (username email password : String) :
    Except HTTPError UserResponse × AppState :=
  if (find_user_by_username s username).isSome then
    (Except.error usernameTakenError, s)
  else if (find_user_by_email s email).isSome then
    (Except.error emailRegisteredError, s)
  else
    let newUser : User := ⟨s.next_user_id, username, email, hashPw password⟩
    (Except.ok ⟨newUser.id, newUser.username, newUser.email⟩,
     ⟨s.users_db ++ [newUser], s.next_user_id + 1,
      dictSet s.carts_db newUser.id []⟩)

/-- `login_user`: resolve the identifier, verify the password, return the
public view; both failure modes raise the same 401 error. -/
def login_user (verifyPw : String → String → Bool) (s : AppState)
    (identifier password : String) : Except HTTPError UserResponse :=
  match find_user_by_username_or_email s identifier with
  | none => Except.error invalidCredentialsError
  | some u =>
    if verifyPw password u.hashed_password then
      Except.ok ⟨u.id, u.username, u.email⟩
    else Except.error invalidCredentialsError

/-- The merge step of `add_to_cart`: bump the quantity of the first line
item matching `pid` (the for/break loop), else append a new item (the
for-else branch). -/
def bumpOrAppend : List LineItem → Nat → Int → List LineItem
  | [], pid, qty => [⟨pid, qty⟩]
  | item :: rest, pid, qty =>
    if item.product_id = pid then ⟨item.product_id, item.quantity + qty⟩ :: rest
    else item :: bumpOrAppend rest pid qty

/-- `add_to_cart`: user-exists check, product-exists check, lazily create
the cart entry, then merge-or-append.  The success body is a constant
message echoing the inputs, so it is modelled as `Unit`. -/
def add_to_cart (s : AppState) (user_id product_id : Nat) (quantity : Int) :
    Except HTTPError Unit × AppState :=
  if ¬ s.users_db.any (fun u => u.id == user_id) then
    (Except.error userNotFoundError, s)
  else
    match find_product_by_id product_id with
    | none => (Except.error productNotFoundError, s)
    | some _ =>
      let carts1 := if (dictLookup s.carts_db user_id).isSome then s.carts_db
                    else dictSet s.carts_db user_id []
      let cart := (dictLookup carts1 user_id).getD []
      (Except.ok (),
       ⟨s.users_db, s.next_user_id,
        dictSet carts1 user_id (bumpOrAppend cart product_id quantity)⟩)

/-- The enrichment step of `get_cart` for one line item: `none` when the
product is unresolvable (the silently-skipped case);
`item_total = price * quantity` in float arithmetic. -/
def enrichCartItem (ci : LineItem) : Option EnrichedCartItem :=
  (find_product_by_id ci.product_id).map fun p =>
    ⟨p.id, p.name, p.price, ci.quantity,
     p.price.mul (intToF64 ci.quantity), p.image⟩

/-- `get_cart`: 404 when the user has no cart entry, else the enriched
items (unresolvable products skipped) and the total quantity. -/
def get_cart (s : AppState) (user_id : Nat) :
    Except HTTPError CartResponse :=
  match dictLookup s.carts_db user_id with
  | none => Except.error cartNotFoundError
  | some cart =>
    let items := cart.filterMap enrichCartItem
    Except.ok ⟨user_id, items, (items.map EnrichedCartItem.quantity).sum⟩

/-- The enrichment step of `checkout` for one line item (no image). -/
def checkoutItemOf (ci : LineItem) : Option CheckoutItem :=
  (find_product_by_id ci.product_id).map fun p =>
    ⟨p.id, p.name, p.price, ci.quantity, p.price.mul (intToF64 ci.quantity)⟩

/-- `checkout`: 400 when the user has no cart entry or the cart is empty;
else enrich the items (unresolvable products skipped), accumulate the
float subtotal, clear the cart, and return subtotal = total. -/
def checkout (s : AppState) (user_id : Nat) :
    Except HTTPError CheckoutResponse × AppState :=
  match dictLookup s.carts_db user_id with
  | none => (Except.error cartEmptyError, s)
  | some cart =>
    if cart.isEmpty then (Except.error cartEmptyError, s)
    else
      let items := cart.filterMap checkoutItemOf
      let subtotal := floatSum (items.map CheckoutItem.item_total)
      (Except.ok ⟨user_id, items, subtotal, subtotal,
         "Order placed successfully!"⟩,
       ⟨s.users_db, s.next_user_id, dictSet s.carts_db user_id []⟩)

/-- Reachability from the initial state by any sequence of the mutating
operations (`get_cart` performs no state change and needs no step; each
step records the operation's full outcome, so failed calls — which leave
the state unchanged — are steps too). -/
inductive Reachable : AppState → Prop
  | init : Reachable initialState
  | register (hashPw : String → String) (username email password : String)
      (s s' : AppState) (r : Except HTTPError UserResponse) :
      Reachable s → register_user hashPw s username email password = (r, s') →
      Reachable s'
  | addItem (s s' : AppState) (uid pid : Nat) (qty : Int)
      (r : Except HTTPError Unit) :
      Reachable s → add_to_cart s uid pid qty = (r, s') → Reachable s'
  | checkoutStep (s s' : AppState) (uid : Nat)
      (r : Except HTTPError CheckoutResponse) :
      Reachable s → checkout s uid = (r, s') → Reachable s'

/-! ### Spec-side definitions and state invariants -/

/-- The spec's subtotal operand list: for each of the cart's line items
that is resolvable in the product catalog, `price * quantity` (in float
arithmetic, as the code computes each `item_total`). -/
def resolvableItemTotals (cart : List LineItem) : List F64 :=
  cart.filterMap fun ci =>
    (find_product_by_id ci.product_id).map fun p =>
      p.price.mul (intToF64 ci.quantity)

/-- Every cart holds at most one line item per distinct product id. -/
def CartPidsNodup (s : AppState) : Prop :=
  ∀ kv ∈ s.carts_db, (kv.2.map LineItem.product_id).Nodup

/-- Every cart key is a registered user's id, and every line item
references a product present in the catalog. -/
def CartsWF (s : AppState) : Prop :=
  ∀ kv ∈ s.carts_db,
    (∃ u ∈ s.users_db, u.id = kv.1) ∧
    ∀ it ∈ kv.2, (find_product_by_id it.product_id).isSome = true

/-- User ids are exactly 1, 2, …, n in registration order, and
`next_user_id` is one past the last assigned id. -/
def UsersSeq (s : AppState) : Prop :=
  s.users_db.map User.id = List.range' 1 s.users_db.length ∧
  s.next_user_id = s.users_db.length + 1

/-- The conjunction of all state invariants. -/
def Inv (s : AppState) : Prop := CartPidsNodup s ∧ CartsWF s ∧ UsersSeq s

/-! ### Concrete states used to instantiate the theorems -/

/-- The state right after registering one user ("alice") from the
initial state, with the opaque hash of "secret" taken to be "pw". -/
def stateA : AppState := ⟨[⟨1, "alice", "a@b.c", "pw"⟩], 2, [(1, [])]⟩

/-- `stateA` after adding product 1 with quantity 2 to alice's cart. -/
def stateB : AppState := ⟨[⟨1, "alice", "a@b.c", "pw"⟩], 2, [(1, [⟨1, 2⟩])]⟩

/-- A state whose cart holds exactly the line items of the spec's
checkout example: product 1 (qty 2) and product 4 (qty 1). -/
def stateC9 : AppState :=
  ⟨[⟨1, "alice", "a@b.c", "pw"⟩], 2, [(1, [⟨1, 2⟩, ⟨4, 1⟩])]⟩

/-! ### Association-list (dict) lemmas -/

theorem dictLookup_nil (k : Nat) : dictLookup [] k = none := rfl

theorem dictLookup_cons (kv : Nat × List LineItem)
    (d : List (Nat × List LineItem)) (k : Nat) :
    dictLookup (kv :: d) k =
      if kv.1 = k then some kv.2 else dictLookup d k := by
  by_cases h : kv.1 = k
  · have hb : (kv.1 == k) = true := by simpa using h
    simp [dictLookup, List.find?, hb, h]
  · have hb : (kv.1 == k) = false := by simpa using h
    simp [dictLookup, List.find?, hb, h]

theorem dictLookup_dictSet_self (d : List (Nat × List LineItem))
    (k : Nat) (v : List LineItem) : dictLookup (dictSet d k v) k = some v := by
  induction d with
  | nil => simp [dictSet, dictLookup_cons, dictLookup_nil]
  | cons kv rest ih =>
    by_cases h : kv.1 = k
    · simp [dictSet, h, dictLookup_cons]
    · simp [dictSet, h, dictLookup_cons, ih]

theorem dictLookup_dictSet_ne (d : List (Nat × List LineItem))
    (k k' : Nat) (v : List LineItem) (h : k' ≠ k) :
    dictLookup (dictSet d k v) k' = dictLookup d k' := by
  have hne : k ≠ k' := fun h2 => h (Eq.symm h2)
  induction d with
  | nil => simp [dictSet, dictLookup_cons, dictLookup_nil, hne]
  | cons kv rest ih =>
    by_cases hk : kv.1 = k
    · subst hk
      simp [dictSet, dictLookup_cons, hne]
    · simp [dictSet, hk, dictLookup_cons, ih]

theorem mem_dictSet (d : List (Nat × List LineItem)) (k : Nat)
    (v : List LineItem) (kv : Nat × List LineItem)
    (h : kv ∈ dictSet d k v) : kv = (k, v) ∨ kv ∈ d := by
  induction d with
  | nil => simpa [dictSet] using h
  | cons hd rest ih =>
    by_cases hk : hd.1 = k
    · simp only [dictSet, if_pos hk, List.mem_cons] at h
      rcases h with h | h
      · exact Or.inl h
      · exact Or.inr (List.mem_cons_of_mem _ h)
    · simp only [dictSet, if_neg hk, List.mem_cons] at h
      rcases h with h | h
      · exact Or.inr (h ▸ List.mem_cons_self _ _)
      · rcases ih h with h2 | h2
        · exact Or.inl h2
        · exact Or.inr (List.mem_cons_of_mem _ h2)

theorem dictSet_map_fst_of_isSome (d : List (Nat × List LineItem))
    (k : Nat) (v : List LineItem) (h : (dictLookup d k).isSome) :
    (dictSet d k v).map Prod.fst = d.map Prod.fst := by
  induction d with
  | nil => simp [dictLookup_nil] at h
  | cons kv rest ih =>
    by_cases hk : kv.1 = k
    · simp [dictSet, hk]
    · rw [dictLookup_cons, if_neg hk] at h
      simp [dictSet, hk, ih h]

theorem dictSet_dictSet (d : List (Nat × List LineItem)) (k : Nat)
    (v w : List LineItem) : dictSet (dictSet d k v) k w = dictSet d k w := by
  induction d with
  | nil => simp [dictSet]
  | cons kv rest ih =>
    by_cases hk : kv.1 = k
    · simp [dictSet, hk]
    · simp [dictSet, hk, ih]

theorem dictLookup_mem (d : List (Nat × List LineItem)) (k : Nat)
    (cart : List LineItem) (h : dictLookup d k = some cart) : (k, cart) ∈ d := by
  induction d with
  | nil => simp [dictLookup_nil] at h
  | cons kv rest ih =>
    rw [dictLookup_cons] at h
    by_cases hk : kv.1 = k
    · rw [if_pos hk] at h
      have h2 : kv.2 = cart := by simpa using h
      have h3 : (k, cart) = kv := by
        rw [← hk, ← h2]
      rw [h3]
      exact List.mem_cons_self _ _
    · rw [if_neg hk] at h
      exact List.mem_cons_of_mem _ (ih h)

/-! ### `bumpOrAppend` (the merge step) lemmas -/

theorem bumpOrAppend_of_not_mem (cart : List LineItem) (pid : Nat) (qty : Int)
    (h : ∀ it ∈ cart, it.product_id ≠ pid) :
    bumpOrAppend cart pid qty = cart ++ [⟨pid, qty⟩] := by
  induction cart with
  | nil => rfl
  | cons item rest ih =>
    have h0 : item.product_id ≠ pid := h item (List.mem_cons_self _ _)
    simp only [bumpOrAppend, if_neg h0, List.cons_append, List.cons.injEq, true_and]
    exact ih fun it hit => h it (List.mem_cons_of_mem _ hit)

theorem bumpOrAppend_of_mem (cart : List LineItem) (pid : Nat) (qty : Int)
    (h : ∃ it ∈ cart, it.product_id = pid) :
    ∃ i, ∃ hi : i < cart.length,
      (cart.get ⟨i, hi⟩).product_id = pid ∧
      (∀ j, j < i → ∀ hj : j < cart.length, (cart.get ⟨j, hj⟩).product_id ≠ pid) ∧
      bumpOrAppend cart pid qty =
        cart.set i ⟨pid, (cart.get ⟨i, hi⟩).quantity + qty⟩ := by
  induction cart with
  | nil => simp at h
  | cons item rest ih =>
    by_cases h0 : item.product_id = pid
    · refine ⟨0, Nat.succ_pos _, h0, by omega, ?_⟩
      simp only [bumpOrAppend, if_pos h0, List.set]
      simp [List.get, h0]
    · obtain ⟨it, hit, hpid⟩ := h
      rcases List.mem_cons.mp hit with rfl | hit2
      · exact absurd hpid h0
      · obtain ⟨i, hi, hget, hfirst, heq⟩ := ih ⟨it, hit2, hpid⟩
        refine ⟨i + 1, Nat.succ_lt_succ hi, hget, ?_, ?_⟩
        · intro j hj hj2
          match j, hj2 with
          | 0, _ => exact h0
          | j + 1, hj2 =>
            exact hfirst j (Nat.lt_of_succ_lt_succ hj) (Nat.lt_of_succ_lt_succ hj2)
        · simp only [bumpOrAppend, if_neg h0, List.set, List.cons.injEq, true_and]
          exact heq

theorem bumpOrAppend_map_pid_of_mem (cart : List LineItem) (pid : Nat)
    (qty : Int) (h : ∃ it ∈ cart, it.product_id = pid) :
    (bumpOrAppend cart pid qty).map LineItem.product_id =
      cart.map LineItem.product_id := by
  induction cart with
  | nil => simp at h
  | cons item rest ih =>
    by_cases h0 : item.product_id = pid
    · simp [bumpOrAppend, if_pos h0]
    · obtain ⟨it, hit, hpid⟩ := h
      rcases List.mem_cons.mp hit with rfl | hit2
      · exact absurd hpid h0
      · simp [bumpOrAppend, if_neg h0, ih ⟨it, hit2, hpid⟩]

theorem bumpOrAppend_pids_nodup (cart : List LineItem) (pid : Nat) (qty : Int)
    (h : (cart.map LineItem.product_id).Nodup) :
    ((bumpOrAppend cart pid qty).map LineItem.product_id).Nodup := by
  by_cases hm : ∃ it ∈ cart, it.product_id = pid
  · rw [bumpOrAppend_map_pid_of_mem cart pid qty hm]
    exact h
  · push_neg at hm
    rw [bumpOrAppend_of_not_mem cart pid qty hm]
    rw [List.map_append]
    simp only [List.map_cons, List.map_nil]
    rw [List.nodup_append]
    refine ⟨h, List.nodup_singleton _, ?_⟩
    intro a ha hb
    obtain ⟨it, hit, rfl⟩ := List.mem_map.mp ha
    simp only [List.mem_singleton] at hb
    exact hm it hit hb

theorem bumpOrAppend_forall_pid (cart : List LineItem) (pid : Nat) (qty : Int)
    (P : Nat → Prop) (h : ∀ it ∈ cart, P it.product_id) (hp : P pid) :
    ∀ it ∈ bumpOrAppend cart pid qty, P it.product_id := by
  induction cart with
  | nil =>
    intro it hit
    simp only [bumpOrAppend, List.mem_singleton] at hit
    rw [hit]
    exact hp
  | cons item rest ih =>
    intro it hit
    by_cases h0 : item.product_id = pid
    · simp only [bumpOrAppend, if_pos h0] at hit
      rcases List.mem_cons.mp hit with h1 | h1
      · rw [h1]
        exact h item (List.mem_cons_self _ _)
      · exact h it (List.mem_cons_of_mem _ h1)
    · simp only [bumpOrAppend, if_neg h0] at hit
      rcases List.mem_cons.mp hit with h1 | h1
      · rw [h1]
        exact h item (List.mem_cons_self _ _)
      · exact ih (fun x hx => h x (List.mem_cons_of_mem _ hx)) it h1

/-! ### Operation-level preservation lemmas -/

theorem add_carts_eq (d : List (Nat × List LineItem)) (uid pid : Nat)
    (qty : Int) :
    dictSet (if (dictLookup d uid).isSome then d else dictSet d uid []) uid
      (bumpOrAppend
        ((dictLookup (if (dictLookup d uid).isSome then d
            else dictSet d uid []) uid).getD []) pid qty)
    = dictSet d uid (bumpOrAppend ((dictLookup d uid).getD []) pid qty) := by
  by_cases h : (dictLookup d uid).isSome
  · rw [if_pos h]
  · rw [if_neg h]
    have h0 : dictLookup d uid = none := Option.not_isSome_iff_eq_none.mp h
    rw [dictLookup_dictSet_self, dictSet_dictSet, h0]
    rfl

theorem register_inv (hashPw : String → String) (s : AppState)
    (username email password : String) (r : Except HTTPError UserResponse)
    (s1 : AppState) (hinv : Inv s)
    (heq : register_user hashPw s username email password = (r, s1)) :
    Inv s1 := by
  obtain ⟨hn, hwf, hseq⟩ := hinv
  simp only [register_user] at heq
  split at heq
  · obtain ⟨h1, h2⟩ := Prod.mk.injEq .. ▸ heq
    subst h2
    exact ⟨hn, hwf, hseq⟩
  · split at heq
    · obtain ⟨h1, h2⟩ := Prod.mk.injEq .. ▸ heq
      subst h2
      exact ⟨hn, hwf, hseq⟩
    · obtain ⟨h1, h2⟩ := Prod.mk.injEq .. ▸ heq
      subst h2
      refine ⟨?_, ?_, ?_⟩
      · intro kv hkv
        rcases mem_dictSet _ _ _ _ hkv with h3 | h3
        · rw [h3]
          exact List.nodup_nil
        · exact hn kv h3
      · intro kv hkv
        rcases mem_dictSet _ _ _ _ hkv with h3 | h3
        · constructor
          · exact ⟨⟨s.next_user_id, username, email, hashPw password⟩,
              List.mem_append_right _ (List.mem_singleton_self _), by rw [h3]⟩
          · intro it hit
            rw [h3] at hit
            simp at hit
        · obtain ⟨⟨u, hu, hid⟩, hres⟩ := hwf kv h3
          exact ⟨⟨u, List.mem_append_left _ hu, hid⟩, hres⟩
      · obtain ⟨hmap, hnext⟩ := hseq
        constructor
        · rw [List.map_append, hmap, List.length_append]
          simp only [List.map_cons, List.map_nil, List.length_cons,
            List.length_nil]
          rw [hnext, List.range'_concat]
          simp [Nat.add_comm]
        · simp only [List.length_append, List.length_cons, List.length_nil]
          rw [hnext]

theorem add_inv (s : AppState) (uid pid : Nat) (qty : Int)
    (r : Except HTTPError Unit) (s1 : AppState) (hinv : Inv s)
    (heq : add_to_cart s uid pid qty = (r, s1)) : Inv s1 := by
  obtain ⟨hn, hwf, hseq⟩ := hinv
  simp only [add_to_cart] at heq
  split at heq
  · obtain ⟨h1, h2⟩ := Prod.mk.injEq .. ▸ heq
    subst h2
    exact ⟨hn, hwf, hseq⟩
  · rename_i huser
    split at heq
    · obtain ⟨h1, h2⟩ := Prod.mk.injEq .. ▸ heq
      subst h2
      exact ⟨hn, hwf, hseq⟩
    · rename_i p hp
      obtain ⟨h1, h2⟩ := Prod.mk.injEq .. ▸ heq
      rw [add_carts_eq] at h2
      subst h2
      have hcart : ((dictLookup s.carts_db uid).getD []).map
          LineItem.product_id |>.Nodup := by
        cases h3 : dictLookup s.carts_db uid with
        | none => simp
        | some cart =>
          simpa using hn (uid, cart) (dictLookup_mem _ _ _ h3)
      have hcartres : ∀ it ∈ (dictLookup s.carts_db uid).getD [],
          (find_product_by_id it.product_id).isSome = true := by
        cases h3 : dictLookup s.carts_db uid with
        | none => simp
        | some cart =>
          simpa using (hwf (uid, cart) (dictLookup_mem _ _ _ h3)).2
      have huser2 : ∃ u ∈ s.users_db, u.id = uid := by
        rw [not_not] at huser
        obtain ⟨u, hu, hid⟩ := List.any_eq_true.mp huser
        exact ⟨u, hu, by simpa using hid⟩
      refine ⟨?_, ?_, hseq⟩
      · intro kv hkv
        rcases mem_dictSet _ _ _ _ hkv with h3 | h3
        · rw [h3]
          exact bumpOrAppend_pids_nodup _ _ _ hcart
        · exact hn kv h3
      · intro kv hkv
        rcases mem_dictSet _ _ _ _ hkv with h3 | h3
        · rw [h3]
          refine ⟨huser2, ?_⟩
          exact bumpOrAppend_forall_pid _ pid qty
            (fun q => (find_product_by_id q).isSome = true) hcartres
            (by show (find_product_by_id pid).isSome = true
                rw [hp]
                rfl)
        · exact hwf kv h3

theorem checkout_inv (s : AppState) (uid : Nat)
    (r : Except HTTPError CheckoutResponse) (s1 : AppState) (hinv : Inv s)
    (heq : checkout s uid = (r, s1)) : Inv s1 := by
  obtain ⟨hn, hwf, hseq⟩ := hinv
  simp only [checkout] at heq
  split at heq
  · obtain ⟨h1, h2⟩ := Prod.mk.injEq .. ▸ heq
    subst h2
    exact ⟨hn, hwf, hseq⟩
  · rename_i cart hcart
    split at heq
    · obtain ⟨h1, h2⟩ := Prod.mk.injEq .. ▸ heq
      subst h2
      exact ⟨hn, hwf, hseq⟩
    · obtain ⟨h1, h2⟩ := Prod.mk.injEq .. ▸ heq
      subst h2
      refine ⟨?_, ?_, hseq⟩
      · intro kv hkv
        rcases mem_dictSet _ _ _ _ hkv with h3 | h3
        · rw [h3]
          exact List.nodup_nil
        · exact hn kv h3
      · intro kv hkv
        rcases mem_dictSet _ _ _ _ hkv with h3 | h3
        · rw [h3]
          refine ⟨(hwf (uid, cart) (dictLookup_mem _ _ _ hcart)).1, ?_⟩
          intro it hit
          simp at hit
        · exact hwf kv h3

/-! ### Bridging lemmas between the helpers and their specifications -/

theorem find_user_by_username_isSome_iff (s : AppState) (username : String) :
    (find_user_by_username s username).isSome = true ↔
      ∃ u ∈ s.users_db, u.username = username := by
  simp [find_user_by_username, List.find?_isSome]

theorem find_user_by_email_isSome_iff (s : AppState) (email : String) :
    (find_user_by_email s email).isSome = true ↔
      ∃ u ∈ s.users_db, u.email = email := by
  simp [find_user_by_email, List.find?_isSome]

theorem users_any_iff (s : AppState) (uid : Nat) :
    (s.users_db.any fun u => u.id == uid) = true ↔
      ∃ u ∈ s.users_db, u.id = uid := by
  simp [List.any_eq_true]

theorem find_product_by_id_some_id (pid : Nat) (p : Product)
    (h : find_product_by_id pid = some p) : p.id = pid := by
  simpa using List.find?_some h

/-- Case analysis of `checkout`: no cart entry, empty cart, or success
with the enriched items, accumulated subtotal and cleared cart. -/
theorem checkout_eq_cases (s : AppState) (uid : Nat) :
    (dictLookup s.carts_db uid = none ∧
      checkout s uid = (Except.error cartEmptyError, s)) ∨
    (dictLookup s.carts_db uid = some [] ∧
      checkout s uid = (Except.error cartEmptyError, s)) ∨
    (∃ cart, dictLookup s.carts_db uid = some cart ∧ cart ≠ [] ∧
      checkout s uid = (Except.ok ⟨uid, cart.filterMap checkoutItemOf,
          floatSum ((cart.filterMap checkoutItemOf).map CheckoutItem.item_total),
          floatSum ((cart.filterMap checkoutItemOf).map CheckoutItem.item_total),
          "Order placed successfully!"⟩,
        ⟨s.users_db, s.next_user_id, dictSet s.carts_db uid []⟩)) := by
  cases h3 : dictLookup s.carts_db uid with
  | none => exact Or.inl ⟨rfl, by simp [checkout, h3]⟩
  | some cart =>
    cases cart with
    | nil => exact Or.inr (Or.inl ⟨rfl, by simp [checkout, h3]⟩)
    | cons a l =>
      refine Or.inr (Or.inr ⟨a :: l, rfl, by simp, ?_⟩)
      simp only [checkout, h3, List.isEmpty_cons, Bool.false_eq_true,
        if_false]

/-- The item totals summed by `checkout` are exactly the spec's
`price * quantity` over the resolvable line items. -/
theorem itemTotals_eq (cart : List LineItem) :
    (cart.filterMap checkoutItemOf).map CheckoutItem.item_total =
      resolvableItemTotals cart := by
  induction cart with
  | nil => rfl
  | cons ci rest ih =>
    cases h : find_product_by_id ci.product_id with
    | none =>
      simp only [resolvableItemTotals, List.filterMap_cons, checkoutItemOf,
        h, Option.map_none] at ih ⊢
      exact ih
    | some p =>
      simp only [resolvableItemTotals, List.filterMap_cons, checkoutItemOf,
        h, Option.map_some', List.map_cons] at ih ⊢
      rw [ih]

/-! ### Preservation of the per-cart product-id uniqueness alone -/

theorem register_nodup (hashPw : String → String) (s : AppState)
    (username email password : String) (r : Except HTTPError UserResponse)
    (s1 : AppState) (hn : CartPidsNodup s)
    (heq : register_user hashPw s username email password = (r, s1)) :
    CartPidsNodup s1 := by
  simp only [register_user] at heq
  split at heq
  · obtain ⟨h1, h2⟩ := Prod.mk.injEq .. ▸ heq
    subst h2
    exact hn
  · split at heq
    · obtain ⟨h1, h2⟩ := Prod.mk.injEq .. ▸ heq
      subst h2
      exact hn
    · obtain ⟨h1, h2⟩ := Prod.mk.injEq .. ▸ heq
      subst h2
      intro kv hkv
      rcases mem_dictSet _ _ _ _ hkv with h3 | h3
      · rw [h3]
        exact List.nodup_nil
      · exact hn kv h3

theorem add_nodup (s : AppState) (uid pid : Nat) (qty : Int)
    (r : Except HTTPError Unit) (s1 : AppState) (hn : CartPidsNodup s)
    (heq : add_to_cart s uid pid qty = (r, s1)) : CartPidsNodup s1 := by
  simp only [add_to_cart] at heq
  split at heq
  · obtain ⟨h1, h2⟩ := Prod.mk.injEq .. ▸ heq
    subst h2
    exact hn
  · split at heq
    · obtain ⟨h1, h2⟩ := Prod.mk.injEq .. ▸ heq
      subst h2
      exact hn
    · obtain ⟨h1, h2⟩ := Prod.mk.injEq .. ▸ heq
      rw [add_carts_eq] at h2
      subst h2
      intro kv hkv
      rcases mem_dictSet _ _ _ _ hkv with h3 | h3
      · rw [h3]
        apply bumpOrAppend_pids_nodup
        cases h4 : dictLookup s.carts_db uid with
        | none => simp
        | some cart => simpa using hn (uid, cart) (dictLookup_mem _ _ _ h4)
      · exact hn kv h3

theorem checkout_nodup (s : AppState) (uid : Nat)
    (r : Except HTTPError CheckoutResponse) (s1 : AppState)
    (hn : CartPidsNodup s) (heq : checkout s uid = (r, s1)) :
    CartPidsNodup s1 := by
  simp only [checkout] at heq
  split at heq
  · obtain ⟨h1, h2⟩ := Prod.mk.injEq .. ▸ heq
    subst h2
    exact hn
  · split at heq
    · obtain ⟨h1, h2⟩ := Prod.mk.injEq .. ▸ heq
      subst h2
      exact hn
    · obtain ⟨h1, h2⟩ := Prod.mk.injEq .. ▸ heq
      subst h2
      intro kv hkv
      rcases mem_dictSet _ _ _ _ hkv with h3 | h3
      · rw [h3]
        exact List.nodup_nil
      · exact hn kv h3

/-- Every reachable state satisfies all the invariants. -/
theorem reachable_inv (s : AppState) (h : Reachable s) : Inv s := by
  induction h with
  | init =>
    refine ⟨?_, ?_, by simp [UsersSeq, initialState]⟩
    · intro kv hkv
      simp [initialState] at hkv
    · intro kv hkv
      simp [initialState] at hkv
  | register hashPw username email password s s' r _ heq ih =>
    exact register_inv hashPw s username email password r s' ih heq
  | addItem s s' uid pid qty r _ heq ih =>
    exact add_inv s uid pid qty r s' ih heq
  | checkoutStep s s' uid r _ heq ih =>
    exact checkout_inv s uid r s' ih heq

/-- `stateA` is reachable: register alice from the initial state. -/
theorem reachable_stateA : Reachable stateA :=
  Reachable.register (fun _ => "pw") "alice" "a@b.c" "secret"
    initialState stateA (Except.ok ⟨1, "alice", "a@b.c"⟩) Reachable.init rfl

/-- `stateB` is reachable: then add product 1 (qty 2) to alice's cart. -/
theorem reachable_stateB : Reachable stateB :=
  Reachable.addItem stateA stateB 1 1 2 (Except.ok ()) reachable_stateA rfl

/-- `stateC9` is reachable: then add product 4 (qty 1) as well. -/
theorem reachable_stateC9 : Reachable stateC9 :=
  Reachable.addItem stateB stateC9 1 4 1 (Except.ok ()) reachable_stateB rfl

/-! ### Claims -/

/-- C4: in every state reachable from the initial state by any sequence
of register, addItem, getCart and checkout operations, every cart holds
at most one line item per distinct product id; and each mutating
operation preserves this invariant from any state satisfying it
(`get_cart` performs no state change at all, as its type shows). -/
theorem claim_C4_cart_unique_pids (s : AppState) :
    (Reachable s → ∀ kv ∈ s.carts_db, (kv.2.map LineItem.product_id).Nodup) ∧
    (∀ hashPw username email password r s1, CartPidsNodup s →
      register_user hashPw s username email password = (r, s1) →
      CartPidsNodup s1) ∧
    (∀ uid pid qty r s1, CartPidsNodup s →
      add_to_cart s uid pid qty = (r, s1) → CartPidsNodup s1) ∧
    (∀ uid r s1, CartPidsNodup s →
      checkout s uid = (r, s1) → CartPidsNodup s1) :=
  ⟨fun h => (reachable_inv s h).1,
   fun hashPw username email password r s1 hn heq =>
     register_nodup hashPw s username email password r s1 hn heq,
   fun uid pid qty r s1 hn heq => add_nodup s uid pid qty r s1 hn heq,
   fun uid r s1 hn heq => checkout_nodup s uid r s1 hn heq⟩

theorem claim_C4_cart_unique_pids_witness :
    (([⟨1, 2⟩, ⟨4, 1⟩] : List LineItem).map LineItem.product_id).Nodup :=
  (claim_C4_cart_unique_pids stateC9).1 reachable_stateC9
    (1, [⟨1, 2⟩, ⟨4, 1⟩]) (by simp [stateC9])

/-- C5: register fails with the duplicate-username error when an
existing user has exactly that username; with the duplicate-email error
when (the username is fresh and) an existing user has that email; and
every failure leaves the state — user list, id counter, carts — fully
unchanged and is one of those two errors. -/
theorem claim_C5_register_duplicates (hashPw : String → String)
    (s : AppState) (username email password : String) :
    ((∃ u ∈ s.users_db, u.username = username) →
      register_user hashPw s username email password =
        (Except.error usernameTakenError, s)) ∧
    ((∀ u ∈ s.users_db, u.username ≠ username) →
      (∃ u ∈ s.users_db, u.email = email) →
      register_user hashPw s username email password =
        (Except.error emailRegisteredError, s)) ∧
    (∀ e, (register_user hashPw s username email password).1 =
        Except.error e →
      (register_user hashPw s username email password).2 = s ∧
      (e = usernameTakenError ∨ e = emailRegisteredError)) := by
  refine ⟨?_, ?_, ?_⟩
  · intro h
    have h1 : (find_user_by_username s username).isSome = true :=
      (find_user_by_username_isSome_iff s username).mpr h
    simp [register_user, h1]
  · intro hno hem
    have h0 : find_user_by_username s username = none := by
      simp only [find_user_by_username, List.find?_eq_none]
      intro u hu
      simpa using hno u hu
    have h2 : (find_user_by_email s email).isSome = true :=
      (find_user_by_email_isSome_iff s email).mpr hem
    simp [register_user, h0, h2]
  · intro e he
    by_cases h1 : (find_user_by_username s username).isSome = true
    · have hr : register_user hashPw s username email password =
          (Except.error usernameTakenError, s) := by
        simp [register_user, h1]
      rw [hr] at he
      injection he with h3
      rw [hr]
      exact ⟨rfl, Or.inl h3.symm⟩
    · have h1f : (find_user_by_username s username).isSome = false := by
        simpa using h1
      by_cases h2 : (find_user_by_email s email).isSome = true
      · have hr : register_user hashPw s username email password =
            (Except.error emailRegisteredError, s) := by
          simp [register_user, h1f, h2]
        rw [hr] at he
        injection he with h3
        rw [hr]
        exact ⟨rfl, Or.inr h3.symm⟩
      · have h2f : (find_user_by_email s email).isSome = false := by
          simpa using h2
        have hr : (register_user hashPw s username email password).1 =
            Except.ok ⟨s.next_user_id, username, email⟩ := by
          simp [register_user, h1f, h2f]
        rw [hr] at he
        simp at he

theorem claim_C5_register_duplicates_witness :
    (∃ u ∈ stateA.users_db, u.username = "alice") ∧
    register_user (fun p => p) stateA "alice" "x@y.z" "pw2" =
      (Except.error usernameTakenError, stateA) ∧
    (∃ u ∈ stateA.users_db, u.email = "a@b.c") ∧
    register_user (fun p => p) stateA "bob" "a@b.c" "pw2" =
      (Except.error emailRegisteredError, stateA) := by
  have halice : (⟨1, "alice", "a@b.c", "pw"⟩ : User) ∈ stateA.users_db := by
    simp [stateA]
  refine ⟨⟨_, halice, rfl⟩, ?_, ⟨_, halice, rfl⟩, ?_⟩
  · exact (claim_C5_register_duplicates (fun p => p) stateA
      "alice" "x@y.z" "pw2").1 ⟨_, halice, rfl⟩
  · refine (claim_C5_register_duplicates (fun p => p) stateA
      "bob" "a@b.c" "pw2").2.1 ?_ ⟨_, halice, rfl⟩
    intro u hu
    simp only [stateA, List.mem_singleton] at hu
    rw [hu]
    simp

/-- C2: checkout reports the empty-cart error exactly when the user has
no cart entry or an empty one; every checkout failure is that error and
changes no state; and a second checkout immediately after a successful
one fails with the empty-cart error (and changes nothing). -/
theorem claim_C2_checkout_empty_iff (s : AppState) (uid : Nat) :
    ((checkout s uid).1 = Except.error cartEmptyError ↔
      dictLookup s.carts_db uid = none ∨
        dictLookup s.carts_db uid = some []) ∧
    (∀ e, (checkout s uid).1 = Except.error e →
      e = cartEmptyError ∧ (checkout s uid).2 = s) ∧
    (∀ r s1, checkout s uid = (Except.ok r, s1) →
      (checkout s1 uid).1 = Except.error cartEmptyError ∧
      (checkout s1 uid).2 = s1) := by
  rcases checkout_eq_cases s uid with ⟨h1, h2⟩ | ⟨h1, h2⟩ | ⟨cart, h1, hne, h2⟩
  · refine ⟨?_, ?_, ?_⟩
    · rw [h2]
      simp [h1]
    · intro e he
      rw [h2] at he ⊢
      injection he with h3
      exact ⟨h3.symm, rfl⟩
    · intro r s1 heq
      rw [h2] at heq
      simp at heq
  · refine ⟨?_, ?_, ?_⟩
    · rw [h2]
      simp [h1]
    · intro e he
      rw [h2] at he ⊢
      injection he with h3
      exact ⟨h3.symm, rfl⟩
    · intro r s1 heq
      rw [h2] at heq
      simp at heq
  · refine ⟨?_, ?_, ?_⟩
    · rw [h2]
      constructor
      · intro h
        simp at h
      · intro h
        rcases h with h | h
        · rw [h1] at h
          simp at h
        · rw [h1] at h
          simp only [Option.some.injEq] at h
          exact absurd h hne
    · intro e he
      rw [h2] at he
      simp at he
    · intro r s1 heq
      rw [h2] at heq
      obtain ⟨hr, hs⟩ := Prod.mk.injEq .. ▸ heq
      subst hs
      constructor <;> simp [checkout, dictLookup_dictSet_self]

theorem claim_C2_checkout_empty_iff_witness :
    (checkout stateA 1).1 = Except.error cartEmptyError ∧
    (checkout stateA 1).2 = stateA :=
  (claim_C2_checkout_empty_iff stateB 1).2.2
    ⟨1, [⟨1, "iPhone 15 Pro", ⟨4398002530638889, -42⟩, 2,
        ⟨4398002530638889, -41⟩⟩], ⟨4398002530638889, -41⟩,
      ⟨4398002530638889, -41⟩, "Order placed successfully!"⟩
    stateA (by decide)

/-- C8: `get_cart` fails exactly when the user has no cart entry, every
such failure is the cart-not-found error, and a freshly registered user
(no adds yet) has an existing, empty cart: `get_cart` succeeds with zero
items. -/
theorem claim_C8_getCart_notFound_iff (s : AppState) (uid : Nat) :
    ((∃ e, get_cart s uid = Except.error e) ↔
      dictLookup s.carts_db uid = none) ∧
    (∀ e, get_cart s uid = Except.error e → e = cartNotFoundError) ∧
    (∀ hashPw username email password r s1,
      register_user hashPw s username email password = (Except.ok r, s1) →
      get_cart s1 r.id = Except.ok ⟨r.id, [], 0⟩) := by
  refine ⟨?_, ?_, ?_⟩
  · cases h : dictLookup s.carts_db uid with
    | none => simp [get_cart, h]
    | some cart => simp [get_cart, h]
  · intro e he
    cases h : dictLookup s.carts_db uid with
    | none =>
      simp only [get_cart, h] at he
      injection he with h3
      exact h3.symm
    | some cart =>
      simp only [get_cart, h] at he
      exact Except.noConfusion he
  · intro hashPw username email password r s1 heq
    simp only [register_user] at heq
    split at heq
    · simp at heq
    · split at heq
      · simp at heq
      · obtain ⟨hr, hs⟩ := Prod.mk.injEq .. ▸ heq
        have hrr : r = ⟨s.next_user_id, username, email⟩ := by
          injection hr with h3
          exact h3.symm
        subst hs
        rw [hrr]
        simp [get_cart, dictLookup_dictSet_self]

theorem claim_C8_getCart_notFound_iff_witness :
    register_user (fun _ => "pw") initialState "alice" "a@b.c" "secret" =
      (Except.ok ⟨1, "alice", "a@b.c"⟩, stateA) ∧
    get_cart stateA 1 = Except.ok ⟨1, [], 0⟩ := by
  refine ⟨rfl, ?_⟩
  exact (claim_C8_getCart_notFound_iff initialState 1).2.2 (fun _ => "pw")
    "alice" "a@b.c" "secret" ⟨1, "alice", "a@b.c"⟩ stateA rfl

/-- C1: for every user whose cart entry exists and holds at least one
line item, checkout succeeds; the returned subtotal is the (float)
accumulation of `price * quantity` over the catalog-resolvable line
items, the total equals the subtotal, and the only state change is that
that user's cart contents become the empty sequence: the cart entry
itself persists, all other cart entries, the user list and the id
counter are untouched. -/
theorem claim_C1_checkout_success (s : AppState) (uid : Nat)
    (cart : List LineItem) (hc : dictLookup s.carts_db uid = some cart)
    (hne : cart ≠ []) :
    ∃ r s1, checkout s uid = (Except.ok r, s1) ∧
      r.subtotal = floatSum (resolvableItemTotals cart) ∧
      r.total = r.subtotal ∧
      s1.users_db = s.users_db ∧
      s1.next_user_id = s.next_user_id ∧
      dictLookup s1.carts_db uid = some [] ∧
      (∀ k, k ≠ uid → dictLookup s1.carts_db k = dictLookup s.carts_db k) ∧
      s1.carts_db.map Prod.fst = s.carts_db.map Prod.fst := by
  rcases checkout_eq_cases s uid with ⟨h1, h2⟩ | ⟨h1, h2⟩ | ⟨cart2, h1, hne2, h2⟩
  · rw [hc] at h1
    exact Option.noConfusion h1
  · rw [hc] at h1
    simp only [Option.some.injEq] at h1
    exact absurd h1 hne
  · have hcc : cart2 = cart := by
      rw [hc] at h1
      simp only [Option.some.injEq] at h1
      exact h1.symm
    subst hcc
    refine ⟨_, _, h2, ?_, rfl, rfl, rfl, ?_, ?_, ?_⟩
    · show floatSum ((cart2.filterMap checkoutItemOf).map CheckoutItem.item_total)
        = floatSum (resolvableItemTotals cart2)
      rw [itemTotals_eq]
    · exact dictLookup_dictSet_self _ _ _
    · intro k hk
      exact dictLookup_dictSet_ne _ _ _ _ hk
    · exact dictSet_map_fst_of_isSome _ _ _ (by rw [hc]; rfl)

theorem claim_C1_checkout_success_witness :
    dictLookup stateB.carts_db 1 = some [⟨1, 2⟩] ∧
    ([⟨1, 2⟩] : List LineItem) ≠ [] ∧
    ∃ r s1, checkout stateB 1 = (Except.ok r, s1) ∧
      r.subtotal = floatSum (resolvableItemTotals [⟨1, 2⟩]) ∧
      r.total = r.subtotal ∧
      s1.users_db = stateB.users_db ∧
      s1.next_user_id = stateB.next_user_id ∧
      dictLookup s1.carts_db 1 = some [] ∧
      s1.carts_db.map Prod.fst = stateB.carts_db.map Prod.fst := by
  refine ⟨rfl, by simp, ?_⟩
  obtain ⟨r, s1, h1, h2, h3, h4, h5, h6, _, h8⟩ :=
    claim_C1_checkout_success stateB 1 [⟨1, 2⟩] rfl (by simp)
  exact ⟨r, s1, h1, h2, h3, h4, h5, h6, h8⟩

/-- C3: for a registered user and an existing product, addItem merges
into an existing line item for that product id — the first such line
item's quantity grows by the requested amount (no upper bound), nothing
is appended and no other entry changes — and otherwise appends the new
line item at the end of the cart (an absent cart entry behaves as the
empty cart).  In particular adding product 1 qty 2 then product 1 qty 3
to a fresh user's cart yields exactly the one line item (1, 5). -/
theorem claim_C3_addItem_merge (s : AppState) (uid pid : Nat) (qty : Int)
    (hu : ∃ u ∈ s.users_db, u.id = uid)
    (hp : (find_product_by_id pid).isSome = true) :
    (∃ s1, add_to_cart s uid pid qty = (Except.ok (), s1) ∧
      s1.users_db = s.users_db ∧
      s1.next_user_id = s.next_user_id ∧
      (∀ k, k ≠ uid → dictLookup s1.carts_db k = dictLookup s.carts_db k) ∧
      (∀ cart, dictLookup s.carts_db uid = some cart →
        ((∀ it ∈ cart, it.product_id ≠ pid) →
          dictLookup s1.carts_db uid = some (cart ++ [⟨pid, qty⟩])) ∧
        ((∃ it ∈ cart, it.product_id = pid) →
          ∃ i, ∃ hi : i < cart.length,
            (cart.get ⟨i, hi⟩).product_id = pid ∧
            dictLookup s1.carts_db uid =
              some (cart.set i ⟨pid, (cart.get ⟨i, hi⟩).quantity + qty⟩))) ∧
      (dictLookup s.carts_db uid = none →
        dictLookup s1.carts_db uid = some [⟨pid, qty⟩])) ∧
    dictLookup
        ((add_to_cart ((add_to_cart stateA 1 1 2).2) 1 1 3).2).carts_db 1 =
      some [⟨1, 5⟩] := by
  constructor
  · have hany : (s.users_db.any fun u => u.id == uid) = true :=
      (users_any_iff s uid).mpr hu
    obtain ⟨p, hp2⟩ := Option.isSome_iff_exists.mp hp
    have heq : add_to_cart s uid pid qty = (Except.ok (),
        ⟨s.users_db, s.next_user_id, dictSet s.carts_db uid
          (bumpOrAppend ((dictLookup s.carts_db uid).getD []) pid qty)⟩) := by
      simp only [add_to_cart, hany, hp2, not_true, if_false]
      rw [add_carts_eq]
    refine ⟨_, heq, rfl, rfl, ?_, ?_, ?_⟩
    · intro k hk
      exact dictLookup_dictSet_ne _ _ _ _ hk
    · intro cart hcart
      constructor
      · intro hno
        show dictLookup (dictSet s.carts_db uid
          (bumpOrAppend ((dictLookup s.carts_db uid).getD []) pid qty)) uid = _
        rw [hcart, Option.getD_some, bumpOrAppend_of_not_mem cart pid qty hno]
        exact dictLookup_dictSet_self _ _ _
      · intro hmem
        obtain ⟨i, hi, hget, hfirst, heq2⟩ := bumpOrAppend_of_mem cart pid qty hmem
        refine ⟨i, hi, hget, ?_⟩
        show dictLookup (dictSet s.carts_db uid
          (bumpOrAppend ((dictLookup s.carts_db uid).getD []) pid qty)) uid = _
        rw [hcart, Option.getD_some, heq2]
        exact dictLookup_dictSet_self _ _ _
    · intro hnone
      show dictLookup (dictSet s.carts_db uid
        (bumpOrAppend ((dictLookup s.carts_db uid).getD []) pid qty)) uid = _
      rw [hnone, Option.getD_none,
        show bumpOrAppend [] pid qty = [⟨pid, qty⟩] from rfl]
      exact dictLookup_dictSet_self _ _ _
  · decide

theorem claim_C3_addItem_merge_witness :
    (∃ u ∈ stateA.users_db, u.id = 1) ∧
    (find_product_by_id 1).isSome = true ∧
    ∃ s1, add_to_cart stateA 1 1 2 = (Except.ok (), s1) ∧
      dictLookup s1.carts_db 1 = some [⟨1, 2⟩] := by
  have halice : (⟨1, "alice", "a@b.c", "pw"⟩ : User) ∈ stateA.users_db := by
    simp [stateA]
  refine ⟨⟨_, halice, rfl⟩, by decide, ?_⟩
  obtain ⟨⟨s1, h1, _, _, _, hsome, _⟩, _⟩ :=
    claim_C3_addItem_merge stateA 1 1 2 ⟨_, halice, rfl⟩ (by decide)
  refine ⟨s1, h1, ?_⟩
  have h2 := (hsome [] rfl).1 (by simp)
  simpa using h2

/-- C6: a successful registration assigns the next sequential id (the
first user gets 1; in every reachable state the assigned ids are exactly
1…n, so the new id n+1 extends the sequence and is never a reuse of an
existing id), creates an empty cart entry under that id, and returns the
public view holding exactly the id, username and email — a value that
does not depend on the hash function or password, and whose type
(`UserResponse`) has no password-hash field at all. -/
theorem claim_C6_register_success (hashPw : String → String) (s : AppState)
    (username email password : String) (r : UserResponse) (s1 : AppState)
    (hre : Reachable s)
    (heq : register_user hashPw s username email password =
      (Except.ok r, s1)) :
    r = ⟨s.users_db.length + 1, username, email⟩ ∧
    (s.users_db = [] → r.id = 1) ∧
    r.id = s.next_user_id ∧
    r.id ∉ s.users_db.map User.id ∧
    s1.users_db.map User.id = List.range' 1 s1.users_db.length ∧
    s1.users_db.length = s.users_db.length + 1 ∧
    dictLookup s1.carts_db r.id = some [] ∧
    (∀ hashPw2 password2,
      (register_user hashPw2 s username email password2).1 =
        Except.ok r) := by
  obtain ⟨hmap, hnext⟩ := (reachable_inv s hre).2.2
  simp only [register_user] at heq
  split at heq
  · simp at heq
  · split at heq
    · simp at heq
    · rename_i h1 h2
      obtain ⟨hr, hs⟩ := Prod.mk.injEq .. ▸ heq
      have hrr : r = ⟨s.next_user_id, username, email⟩ := by
        injection hr with h3
        exact h3.symm
      subst hs
      subst hrr
      have h1f : (find_user_by_username s username).isSome = false := by
        simpa using h1
      have h2f : (find_user_by_email s email).isSome = false := by
        simpa using h2
      refine ⟨by rw [hnext], ?_, rfl, ?_, ?_, by simp, ?_, ?_⟩
      · intro h0
        show s.next_user_id = 1
        rw [hnext, h0]
        rfl
      · show s.next_user_id ∉ s.users_db.map User.id
        rw [hmap, hnext]
        intro hmem
        obtain ⟨i, hi, hieq⟩ := List.mem_range'.mp hmem
        omega
      · show (s.users_db ++
            [(⟨s.next_user_id, username, email, hashPw password⟩ : User)]).map
              User.id
          = List.range' 1 ((s.users_db ++
            [(⟨s.next_user_id, username, email, hashPw password⟩ :
              User)]).length)
        rw [List.map_append, hmap, List.length_append]
        simp only [List.map_cons, List.map_nil, List.length_cons,
          List.length_nil]
        rw [hnext, List.range'_concat]
        simp [Nat.add_comm]
      · exact dictLookup_dictSet_self _ _ _
      · intro hashPw2 password2
        simp [register_user, h1f, h2f]

theorem claim_C6_register_success_witness :
    (⟨1, "alice", "a@b.c"⟩ : UserResponse) =
      ⟨initialState.users_db.length + 1, "alice", "a@b.c"⟩ ∧
    dictLookup stateA.carts_db 1 = some [] := by
  obtain ⟨h1, -, -, -, -, -, h7, -⟩ :=
    claim_C6_register_success (fun _ => "pw") initialState "alice" "a@b.c"
      "secret" ⟨1, "alice", "a@b.c"⟩ stateA Reachable.init rfl
  exact ⟨h1, h7⟩

/-- C7: login resolves the identifier by email exactly when it contains
an "@" (else by username), and both failure modes — unknown identifier
and failed password verification — produce the identical 401 error
value; every login failure is that one error. -/
theorem claim_C7_login_resolution_and_errors
    (verifyPw : String → String → Bool) (s : AppState)
    (identifier password : String) :
    (∀ u, find_user_by_username_or_email s identifier = some u →
      u ∈ s.users_db ∧
      (hasAtSign identifier = true → u.email = identifier) ∧
      (hasAtSign identifier = false → u.username = identifier)) ∧
    (find_user_by_username_or_email s identifier = none →
      (∀ u ∈ s.users_db,
        (hasAtSign identifier = true → u.email ≠ identifier) ∧
        (hasAtSign identifier = false → u.username ≠ identifier)) ∧
      login_user verifyPw s identifier password =
        Except.error invalidCredentialsError) ∧
    (∀ u, find_user_by_username_or_email s identifier = some u →
      verifyPw password u.hashed_password = false →
      login_user verifyPw s identifier password =
        Except.error invalidCredentialsError) ∧
    (∀ e, login_user verifyPw s identifier password = Except.error e →
      e = invalidCredentialsError) := by
  refine ⟨?_, ?_, ?_, ?_⟩
  · intro u hu
    by_cases hat : hasAtSign identifier = true
    · simp only [find_user_by_username_or_email, hat, if_true,
        find_user_by_email] at hu
      refine ⟨List.mem_of_find?_eq_some hu, fun _ => ?_, ?_⟩
      · simpa using List.find?_some hu
      · intro hf
        rw [hat] at hf
        exact Bool.noConfusion hf
    · have hatf : hasAtSign identifier = false := by simpa using hat
      simp only [find_user_by_username_or_email, hatf, Bool.false_eq_true,
        if_false, find_user_by_username] at hu
      refine ⟨List.mem_of_find?_eq_some hu, ?_, fun _ => ?_⟩
      · intro ht
        rw [hatf] at ht
        exact Bool.noConfusion ht
      · simpa using List.find?_some hu
  · intro hnone
    constructor
    · intro u hu
      constructor
      · intro hat
        rw [find_user_by_username_or_email, if_pos hat] at hnone
        have h5 := List.find?_eq_none.mp hnone u hu
        simpa using h5
      · intro hatf
        rw [find_user_by_username_or_email,
          if_neg (by simp [hatf])] at hnone
        have h5 := List.find?_eq_none.mp hnone u hu
        simpa using h5
    · simp [login_user, hnone]
  · intro u hu hverify
    simp [login_user, hu, hverify]
  · intro e he
    cases h : find_user_by_username_or_email s identifier with
    | none =>
      simp only [login_user, h] at he
      injection he with h3
      exact h3.symm
    | some u =>
      simp only [login_user, h] at he
      by_cases hv : verifyPw password u.hashed_password = true
      · rw [if_pos hv] at he
        exact Except.noConfusion he
      · rw [if_neg hv] at he
        injection he with h3
        exact h3.symm

theorem claim_C7_login_resolution_and_errors_witness :
    find_user_by_username_or_email stateA "nobody" = none ∧
    login_user (fun _ _ => true) stateA "nobody" "pw" =
      Except.error invalidCredentialsError ∧
    find_user_by_username_or_email stateA "alice" =
      some ⟨1, "alice", "a@b.c", "pw"⟩ ∧
    login_user (fun _ _ => false) stateA "alice" "wrong" =
      Except.error invalidCredentialsError := by
  refine ⟨by decide, ?_, by decide, ?_⟩
  · exact ((claim_C7_login_resolution_and_errors (fun _ _ => true) stateA
      "nobody" "pw").2.1 (by decide)).2
  · exact (claim_C7_login_resolution_and_errors (fun _ _ => false) stateA
      "alice" "wrong").2.2.1 ⟨1, "alice", "a@b.c", "pw"⟩ rfl rfl

/-- A `filterMap` whose function succeeds on every element relates the
output to the input one-to-one, in order. -/
theorem filterMap_forall₂ {α β : Type} (f : α → Option β)
    (R : β → α → Prop) (l : List α)
    (hf : ∀ a ∈ l, (f a).isSome = true)
    (hr : ∀ a ∈ l, ∀ b, f a = some b → R b a) :
    List.Forall₂ R (l.filterMap f) l := by
  induction l with
  | nil => exact List.Forall₂.nil
  | cons a rest ih =>
    obtain ⟨b, hb⟩ := Option.isSome_iff_exists.mp
      (hf a (List.mem_cons_self _ _))
    simp only [List.filterMap_cons, hb]
    exact List.Forall₂.cons (hr a (List.mem_cons_self _ _) b hb)
      (ih (fun x hx => hf x (List.mem_cons_of_mem _ hx))
        (fun x hx => hr x (List.mem_cons_of_mem _ hx)))

/-- C9 counterexample: on the cart {product 1 qty 2, product 4 qty 1}
checkout succeeds, but its subtotal and total are NOT exactly 2349.97:
the float computation 999.99 * 2 + 349.99 rounds to
2583819339924767 * 2⁻⁴⁰ = 2349.9700000000003 ≠ 2349.97. -/
theorem claim_C9_not_exactly_2349_97 :
    ∃ r s1, checkout stateC9 1 = (Except.ok r, s1) ∧
      r.subtotal.val ≠ (234997 : ℚ) / 100 ∧
      r.total.val ≠ (234997 : ℚ) / 100 := by
  refine ⟨⟨1,
      [⟨1, "iPhone 15 Pro", ⟨4398002530638889, -42⟩, 2,
          ⟨4398002530638889, -41⟩⟩,
        ⟨4, "Sony Headphones", ⟨1539272298421289, -42⟩, 1,
          ⟨1539272298421289, -42⟩⟩],
      ⟨2583819339924767, -40⟩, ⟨2583819339924767, -40⟩,
      "Order placed successfully!"⟩, stateA, by decide, ?_, ?_⟩ <;>
  · show F64.val ⟨2583819339924767, -40⟩ ≠ (234997 : ℚ) / 100
    have hval : F64.val ⟨2583819339924767, -40⟩ =
        (2583819339924767 : ℚ) / 1099511627776 := by
      simp only [F64.val]
      rw [show ((-40 : ℤ)) = -(40 : ℤ) from rfl, zpow_neg]
      norm_num
    rw [hval]
    norm_num

/-- C9 amended: on a cart holding exactly {product 1 qty 2, product 4
qty 1}, checkout returns subtotal = total = the binary64 value
2583819339924767 * 2⁻⁴⁰ (= 2349.9700000000003…, the correctly rounded
result of 999.99 * 2 + 349.99 in float arithmetic — not exactly the
decimal 2349.97), and immediately afterwards the user's cart entry
exists and is empty. -/
theorem claim_C9_float_checkout (s : AppState) (uid : Nat)
    (hc : dictLookup s.carts_db uid = some [⟨1, 2⟩, ⟨4, 1⟩]) :
    ∃ r, checkout s uid = (Except.ok r,
        ⟨s.users_db, s.next_user_id, dictSet s.carts_db uid []⟩) ∧
      r.subtotal = ⟨2583819339924767, -40⟩ ∧
      r.total = ⟨2583819339924767, -40⟩ ∧
      r.subtotal.val = (2583819339924767 : ℚ) / 1099511627776 ∧
      dictLookup (dictSet s.carts_db uid []) uid = some [] := by
  rcases checkout_eq_cases s uid with ⟨h1, h2⟩ | ⟨h1, h2⟩ | ⟨cart2, h1, hne2, h2⟩
  · rw [hc] at h1
    exact Option.noConfusion h1
  · rw [hc] at h1
    simp at h1
  · have hcc : cart2 = [⟨1, 2⟩, ⟨4, 1⟩] := by
      rw [hc] at h1
      simpa using h1.symm
    subst hcc
    refine ⟨_, h2, ?_, ?_, ?_, dictLookup_dictSet_self _ _ _⟩
    · show floatSum
          (([(⟨1, 2⟩ : LineItem), ⟨4, 1⟩].filterMap checkoutItemOf).map
            CheckoutItem.item_total) = ⟨2583819339924767, -40⟩
      decide
    · show floatSum
          (([(⟨1, 2⟩ : LineItem), ⟨4, 1⟩].filterMap checkoutItemOf).map
            CheckoutItem.item_total) = ⟨2583819339924767, -40⟩
      decide
    · show F64.val (floatSum
        (([(⟨1, 2⟩ : LineItem), ⟨4, 1⟩].filterMap checkoutItemOf).map
          CheckoutItem.item_total)) = _
      rw [show floatSum
          (([(⟨1, 2⟩ : LineItem), ⟨4, 1⟩].filterMap checkoutItemOf).map
            CheckoutItem.item_total) = ⟨2583819339924767, -40⟩ by decide]
      simp only [F64.val]
      rw [show ((-40 : ℤ)) = -(40 : ℤ) from rfl, zpow_neg]
      norm_num

theorem claim_C9_float_checkout_witness :
    dictLookup stateC9.carts_db 1 = some [⟨1, 2⟩, ⟨4, 1⟩] ∧
    ∃ r, checkout stateC9 1 = (Except.ok r,
        ⟨stateC9.users_db, stateC9.next_user_id,
          dictSet stateC9.carts_db 1 []⟩) ∧
      r.subtotal = ⟨2583819339924767, -40⟩ := by
  refine ⟨rfl, ?_⟩
  obtain ⟨r, h1, h2, -, -, -⟩ := claim_C9_float_checkout stateC9 1 rfl
  exact ⟨r, h1, h2⟩

/-- C10: in every reachable state, every cart key belongs to a
registered user and every line item references a catalog product; hence
the skip-unresolvable branch in the enrichment loops of `get_cart` and
`checkout` never drops anything, and the enriched items correspond
one-to-one, in order, to the cart's line items. -/
theorem claim_C10_carts_wellformed (s : AppState) (h : Reachable s) :
    ∀ kv ∈ s.carts_db,
      (∃ u ∈ s.users_db, u.id = kv.1) ∧
      (∀ it ∈ kv.2, (find_product_by_id it.product_id).isSome = true) ∧
      List.Forall₂ (fun (e : EnrichedCartItem) (ci : LineItem) =>
          e.product_id = ci.product_id ∧ e.quantity = ci.quantity)
        (kv.2.filterMap enrichCartItem) kv.2 ∧
      List.Forall₂ (fun (e : CheckoutItem) (ci : LineItem) =>
          e.product_id = ci.product_id ∧ e.quantity = ci.quantity)
        (kv.2.filterMap checkoutItemOf) kv.2 := by
  intro kv hkv
  obtain ⟨hu, hres⟩ := (reachable_inv s h).2.1 kv hkv
  refine ⟨hu, hres, ?_, ?_⟩
  · refine filterMap_forall₂ enrichCartItem _ kv.2 ?_ ?_
    · intro it hit
      simp only [enrichCartItem, Option.isSome_map']
      exact hres it hit
    · intro it hit e he
      simp only [enrichCartItem, Option.map_eq_some'] at he
      obtain ⟨p, hp, hfe⟩ := he
      rw [← hfe]
      exact ⟨find_product_by_id_some_id _ _ hp, rfl⟩
  · refine filterMap_forall₂ checkoutItemOf _ kv.2 ?_ ?_
    · intro it hit
      simp only [checkoutItemOf, Option.isSome_map']
      exact hres it hit
    · intro it hit e he
      simp only [checkoutItemOf, Option.map_eq_some'] at he
      obtain ⟨p, hp, hfe⟩ := he
      rw [← hfe]
      exact ⟨find_product_by_id_some_id _ _ hp, rfl⟩

theorem claim_C10_carts_wellformed_witness :
    (∃ u ∈ stateC9.users_db, u.id = 1) ∧
    List.Forall₂ (fun (e : CheckoutItem) (ci : LineItem) =>
        e.product_id = ci.product_id ∧ e.quantity = ci.quantity)
      (([⟨1, 2⟩, ⟨4, 1⟩] : List LineItem).filterMap checkoutItemOf)
      [⟨1, 2⟩, ⟨4, 1⟩] := by
  obtain ⟨h1, -, -, h4⟩ := claim_C10_carts_wellformed stateC9
    reachable_stateC9 (1, [⟨1, 2⟩, ⟨4, 1⟩]) (by simp [stateC9])
  exact ⟨h1, h4⟩

end ECommerce
